import Mathlib

/-!
Verification of the alx-backend-storage NoSQL helper functions
(0x01-NoSQL/8-all.py, 9-insert_school.py, 10-update_topics.py,
11-schools_by_topic.py, 12-log_stats.py).

The five Python functions are thin wrappers over a MongoDB collection
handle.  We embed the document store shallowly: a document is an ordered
association list of field/value pairs, a collection is a list of documents
together with a counter for generated object ids, and the store operations
(find, count_documents, update_many with a $set clause, insert_one) follow
the query-filter contract the repository relies on: an equality filter
`{field: value}` matches a document when the field equals the value, with
array-valued fields treated specially, matching when the value appears in
the array; several pairs in one filter are an implicit AND.
-/

namespace AlxStorage

/-- A BSON-style value: the value shapes the repository manipulates
(strings, integers, arrays of strings for `topics`, and generated
object ids). -/
inductive BsonValue where
  | str (s : String)
  | int (n : Int)
  | arr (xs : List String)
  | oid (k : Nat)
deriving DecidableEq, Repr

/-- A document: an ordered list of field/value pairs (first occurrence of
a field name is the field's value). -/
abbrev Document := List (String × BsonValue)

/-- A query filter: field/value pairs combined by implicit AND. -/
abbrev Filter := List (String × BsonValue)

/-- Field lookup in a document: the value at the first occurrence of the
field name, or `none` when the field is absent. -/
def getField : Document → String → Option BsonValue
  | [], _ => none
  | (g, w) :: rest, f => if g = f then some w else getField rest f

/-- Store match of a stored field value `w` against a query value `v`:
equality, with array fields treated specially — an array also matches a
string query value that appears in the array. -/
def matchValue (w v : BsonValue) : Bool :=
  if w = v then true
  else
    match w, v with
    | BsonValue.arr xs, BsonValue.str s => xs.contains s
    | _, _ => false

/-- A document matches one filter pair when the field is present and its
value matches the query value. -/
def matchPair (d : Document) (f : String) (v : BsonValue) : Bool :=
  match getField d f with
  | none => false
  | some w => matchValue w v

/-- A document matches a filter when it matches every pair (implicit AND);
the empty filter matches every document. -/
def matchFilter (d : Document) (phi : Filter) : Bool :=
  phi.all (fun p => matchPair d p.1 p.2)

/-- A collection: its documents in natural (insertion) order, plus the
counter the store uses to generate fresh object ids. -/
structure Collection where
  docs : List Document
  nextId : Nat
deriving DecidableEq, Repr

/-- Store `find`: every document matching the filter, in natural order. -/
def find (c : Collection) (phi : Filter) : List Document :=
  c.docs.filter (fun d => matchFilter d phi)

/-- Store `count_documents`: the number of documents matching the filter. -/
def count_documents (c : Collection) (phi : Filter) : Nat :=
  (find c phi).length

/-- The `$set` of a single field: replace the value at the first occurrence of
the field name, or append the field when absent.  No other field is
touched. -/
def setField : Document → String → BsonValue → Document
  | [], f, v => [(f, v)]
  | (g, w) :: rest, f, v =>
    if g = f then (f, v) :: rest else (g, w) :: setField rest f v

/-- Store `update_many` with a `$set` clause on one field: apply the `$set` to
every document matching the filter, leaving the others in place. -/
def update_many (c : Collection) (phi : Filter) (f : String) (v : BsonValue) :
    Collection :=
  { c with docs := c.docs.map (fun d => if matchFilter d phi then setField d f v else d) }

/-- Store `insert_one`: append the document with a freshly generated `_id` and
return that id together with the new store state. -/
def insert_one (c : Collection) (d : Document) : BsonValue × Collection :=
  (BsonValue.oid c.nextId,
   { docs := c.docs ++ [("_id", BsonValue.oid c.nextId) :: d],
     nextId := c.nextId + 1 })

/-! ### The repository functions (0x01-NoSQL) -/

/-- From `8-all.py`, `list_all`: empty list for a `None` handle, otherwise all
documents via `find` with the empty filter. -/
def list_all (h : Option Collection) : List Document :=
  match h with
  | none => []
  | some c => find c []

/-- From `9-insert_school.py`, `insert_school`: insert the keyword-argument
document, return `result.inserted_id` (paired here with the new store
state of the state-passing embedding). -/
def insert_school (c : Collection) (kwargs : Document) : BsonValue × Collection :=
  insert_one c kwargs

/-- From `10-update_topics.py`, `update_topics`: `update_many` with filter
`{"name": name}` and update `{"$set": {"topics": topics}}`.  The Python
function returns `None`; the embedding returns the updated store state. -/
def update_topics (c : Collection) (name : String) (topics : List String) :
    Collection :=
  update_many c [("name", BsonValue.str name)] "topics" (BsonValue.arr topics)

/-- From `11-schools_by_topic.py`, `schools_by_topic`:
`list(collection.find({"topics": topic}))`. -/
def schools_by_topic (c : Collection) (topic : String) : List Document :=
  find c [("topics", BsonValue.str topic)]

/-- The fixed method list of `12-log_stats.py`. -/
def methods : List String := ["GET", "POST", "PUT", "PATCH", "DELETE"]

/-- From `12-log_stats.py`, `logs_statistics`: the lines printed, in order, for
a given state of the `nginx` collection of database `logs`. -/
def logs_statistics (c : Collection) : List String :=
  (toString (count_documents c []) ++ " logs") ::
  "Methods:" ::
  (methods.map (fun m =>
      "\tmethod " ++ m ++ ": " ++
        toString (count_documents c [("method", BsonValue.str m)])))
  ++ [toString (count_documents c
        [("method", BsonValue.str "GET"), ("path", BsonValue.str "/status")])
      ++ " status check"]

/-! ### Lemmas about field access and `$set` -/

theorem getField_setField_self (d : Document) (f : String) (v : BsonValue) :
    getField (setField d f v) f = some v := by
  induction d with
  | nil => simp [setField, getField]
  | cons p rest ih =>
    obtain ⟨g, w⟩ := p
    by_cases hgf : g = f
    · simp [setField, hgf, getField]
    · simp [setField, hgf, getField, ih]

theorem getField_setField_ne (d : Document) (f g : String) (v : BsonValue)
    (hne : g ≠ f) : getField (setField d f v) g = getField d g := by
  have hfg : f ≠ g := Ne.symm hne
  induction d with
  | nil => simp [setField, getField, hfg]
  | cons p rest ih =>
    obtain ⟨g₀, w⟩ := p
    by_cases hg₀ : g₀ = f
    · subst hg₀
      simp [setField, getField, hfg]
    · simp only [setField, if_neg hg₀, getField]
      by_cases hg₀g : g₀ = g
      · simp [hg₀g]
      · simp [hg₀g, ih]

theorem setField_idem (d : Document) (f : String) (v : BsonValue) :
    setField (setField d f v) f v = setField d f v := by
  induction d with
  | nil => simp [setField]
  | cons p rest ih =>
    obtain ⟨g, w⟩ := p
    by_cases hgf : g = f
    · simp [setField, hgf]
    · simp [setField, hgf, ih]

theorem matchPair_setField_ne (d : Document) (f g : String) (v q : BsonValue)
    (hne : g ≠ f) : matchPair (setField d f v) g q = matchPair d g q := by
  simp [matchPair, getField_setField_ne d f g v hne]

theorem matchFilter_nil (d : Document) : matchFilter d [] = true := by
  simp [matchFilter]

theorem matchFilter_single (d : Document) (f : String) (v : BsonValue) :
    matchFilter d [(f, v)] = matchPair d f v := by
  simp [matchFilter]

theorem list_all_some (c : Collection) : list_all (some c) = c.docs := by
  simp [list_all, find, matchFilter_nil]

/-! ### C4: Document Lister -/

/-- C4: `list_all` called with the `None` sentinel returns the empty list
without consulting any store; called with a collection handle it returns
every document of the collection, in natural order. -/
theorem list_all_spec (c : Collection) :
    list_all none = ([] : List Document) ∧ list_all (some c) = c.docs :=
  ⟨rfl, list_all_some c⟩

/-! ### C1: Topic Updater sets `topics` on every matching document -/

/-- C1: after `update_topics c N T`, every document of the resulting
collection whose `name` field equals `N` has its `topics` field equal to
exactly the array `T`, the previous value entirely discarded.  (In the
state-passing embedding the updated state is the only output; the Python
function returns `None`.) -/
theorem update_topics_sets_matching (c : Collection) (N : String)
    (T : List String) (d : Document)
    (hd : d ∈ (update_topics c N T).docs)
    (hname : getField d "name" = some (BsonValue.str N)) :
    getField d "topics" = some (BsonValue.arr T) := by
  simp only [update_topics, update_many, List.mem_map] at hd
  obtain ⟨d₀, _, hmap⟩ := hd
  by_cases hm : matchFilter d₀ [("name", BsonValue.str N)] = true
  · rw [if_pos hm] at hmap
    subst hmap
    exact getField_setField_self d₀ "topics" (BsonValue.arr T)
  · rw [if_neg hm] at hmap
    subst hmap
    exfalso
    apply hm
    rw [matchFilter_single, matchPair, hname]
    simp [matchValue]

/-- C1 witness: a one-document collection, updated concretely. -/
theorem update_topics_sets_matching_witness :
    getField [("name", BsonValue.str "S"), ("topics", BsonValue.arr ["a"])]
      "topics" = some (BsonValue.arr ["a"]) :=
  update_topics_sets_matching
    ⟨[[("name", BsonValue.str "S"), ("topics", BsonValue.str "old")]], 0⟩
    "S" ["a"]
    [("name", BsonValue.str "S"), ("topics", BsonValue.arr ["a"])]
    (by decide) (by decide)

/-! ### C7: idempotence of the Topic Updater -/

/-- C7: running `update_topics` twice with the same arguments yields the
same collection state as running it once. -/
theorem update_topics_idem (c : Collection) (N : String) (T : List String) :
    update_topics (update_topics c N T) N T = update_topics c N T := by
  simp only [update_topics, update_many, List.map_map]
  refine congrArg (fun l => Collection.mk l c.nextId) ?_
  apply List.map_congr_left
  intro d _
  simp only [Function.comp]
  by_cases hm : matchFilter d [("name", BsonValue.str N)] = true
  · rw [if_pos hm]
    have hm' : matchFilter (setField d "topics" (BsonValue.arr T))
        [("name", BsonValue.str N)] = true := by
      rw [matchFilter_single,
        matchPair_setField_ne d "topics" "name" (BsonValue.arr T)
          (BsonValue.str N) (by decide), ← matchFilter_single]
      exact hm
    rw [if_pos hm', setField_idem]
  · rw [if_neg hm, if_neg hm]

/-! ### C2: Topic Filter versus Lister -/

/-- Spec-as-written predicate for C2: the `topics` field contains the
given value as a member of an array (array-membership semantics, not
equality). -/
def specTopicMember (d : Document) (t : String) : Bool :=
  match getField d "topics" with
  | some (BsonValue.arr xs) => xs.contains t
  | _ => false

/-- Spec-side predicate for the amended C2: the `topics` field either
equals the query value or is an array containing it — the store's
equality-or-membership match. -/
def specTopicMatch (d : Document) (t : String) : Bool :=
  match getField d "topics" with
  | none => false
  | some (BsonValue.str s) => s = t
  | some (BsonValue.arr xs) => xs.contains t
  | some _ => false

/-- A collection holding one document whose `topics` field is the scalar
string `"math"` rather than an array. -/
def cexScalarTopics : Collection :=
  ⟨[[("topics", BsonValue.str "math")]], 0⟩

/-- C2 counterexample: on a document whose `topics` field is the scalar
`"math"`, `schools_by_topic` returns the document (the store's equality
match), yet the membership-only subset of `list_all` is empty, so the
claimed equality fails. -/
theorem schools_by_topic_membership_cex :
    schools_by_topic cexScalarTopics "math" ≠
      (list_all (some cexScalarTopics)).filter
        (fun d => specTopicMember d "math") := by
  decide

/-- C2 amended: `schools_by_topic c t` is exactly the subset of
`list_all (some c)` whose `topics` field equals `t` or is an array
containing `t` (the store's equality-or-membership match). -/
theorem schools_by_topic_eq_filter (c : Collection) (t : String) :
    schools_by_topic c t =
      (list_all (some c)).filter (fun d => specTopicMatch d t) := by
  have hmatch : ∀ d : Document,
      matchFilter d [("topics", BsonValue.str t)] = specTopicMatch d t := by
    intro d
    rw [matchFilter_single]
    unfold matchPair specTopicMatch
    cases hg : getField d "topics" with
    | none => rfl
    | some w =>
      cases w with
      | str s => simp [matchValue]
      | int n => simp [matchValue]
      | arr xs => simp [matchValue]
      | oid k => simp [matchValue]
  rw [list_all_some c]
  unfold schools_by_topic find
  exact List.filter_congr (fun d _ => hmatch d)

/-! ### C3: Log Statistics Reporter -/

/-- Spec-as-written count for C3: the number of documents whose field
equals the given value (strict equality). -/
def eqFieldCount (c : Collection) (f : String) (v : BsonValue) : Nat :=
  (c.docs.filter (fun d => getField d f = some v)).length

/-- Spec-as-written status-check count for C3: `method` equals `"GET"`
and `path` equals `"/status"` (strict equality). -/
def eqStatusCount (c : Collection) : Nat :=
  (c.docs.filter (fun d =>
    getField d "method" = some (BsonValue.str "GET") ∧
    getField d "path" = some (BsonValue.str "/status"))).length

/-- The report C3 claims, built from strict-equality counts. -/
def specLogReport (c : Collection) : List String :=
  (toString c.docs.length ++ " logs") ::
  "Methods:" ::
  (methods.map (fun m =>
      "\tmethod " ++ m ++ ": " ++
        toString (eqFieldCount c "method" (BsonValue.str m))))
  ++ [toString (eqStatusCount c) ++ " status check"]

/-- Spec-side match for the amended claims: the field equals the value,
or the field is an array and the value a string appearing in it. -/
def specEqOrMember (d : Document) (f : String) (v : BsonValue) : Bool :=
  match getField d f with
  | none => false
  | some w =>
    if w = v then true
    else
      match w, v with
      | BsonValue.arr xs, BsonValue.str s => xs.contains s
      | _, _ => false

/-- The report of the amended C3: per-method counts and the status-check
count use the store's equality-or-membership match, total counts all
documents. -/
def amendedLogReport (c : Collection) : List String :=
  (toString c.docs.length ++ " logs") ::
  "Methods:" ::
  (methods.map (fun m =>
      "\tmethod " ++ m ++ ": " ++
        toString ((c.docs.filter
          (fun d => specEqOrMember d "method" (BsonValue.str m))).length)))
  ++ [toString ((c.docs.filter (fun d =>
        specEqOrMember d "method" (BsonValue.str "GET") &&
        specEqOrMember d "path" (BsonValue.str "/status"))).length)
      ++ " status check"]

/-- A collection holding one log document whose `method` field is the
array `["GET"]` rather than the string `"GET"`. -/
def cexArrayMethod : Collection :=
  ⟨[[("method", BsonValue.arr ["GET"])]], 0⟩

/-- C3 counterexample: on a document whose `method` field is the array
`["GET"]`, the reporter counts it under GET (the store matches the array
by membership), but the document's `method` field does not equal
`"GET"`, so the printed lines differ from the claimed ones. -/
theorem logs_statistics_eqcount_cex :
    logs_statistics cexArrayMethod ≠ specLogReport cexArrayMethod := by
  decide

theorem matchPair_eq_specEqOrMember (d : Document) (f : String)
    (v : BsonValue) : matchPair d f v = specEqOrMember d f v := by
  unfold matchPair specEqOrMember matchValue
  cases getField d f <;> rfl

theorem matchFilter_pair (d : Document) (f₁ : String) (v₁ : BsonValue)
    (f₂ : String) (v₂ : BsonValue) :
    matchFilter d [(f₁, v₁), (f₂, v₂)] =
      (matchPair d f₁ v₁ && matchPair d f₂ v₂) := by
  simp [matchFilter]

theorem count_documents_nil (c : Collection) :
    count_documents c [] = c.docs.length := by
  simp [count_documents, find, matchFilter_nil]

/-- C3 amended: the reporter prints exactly the total count line, the
`Methods:` header, one tab-prefixed line per method in the fixed order,
and the status-check line — with every count using the store's
equality-or-membership match instead of strict field equality. -/
theorem logs_statistics_spec (c : Collection) :
    logs_statistics c = amendedLogReport c := by
  unfold logs_statistics amendedLogReport
  rw [count_documents_nil]
  refine congrArg₂ (fun a b => a :: "Methods:" :: b) rfl (congrArg₂ _ ?_ ?_)
  · apply List.map_congr_left
    intro m _
    refine congrArg (fun k => "\tmethod " ++ m ++ ": " ++ toString k) ?_
    unfold count_documents find
    refine congrArg List.length (List.filter_congr ?_)
    intro d _
    rw [matchFilter_single, matchPair_eq_specEqOrMember]
  · refine congrArg (fun k => [toString k ++ " status check"]) ?_
    unfold count_documents find
    refine congrArg List.length (List.filter_congr ?_)
    intro d _
    rw [matchFilter_pair, matchPair_eq_specEqOrMember,
      matchPair_eq_specEqOrMember]

/-! ### C6: frame of the Topic Updater -/

/-- A collection holding one school document whose `name` field is the
array `["Alpha"]` rather than a string. -/
def cexArrayName : Collection :=
  ⟨[[("name", BsonValue.arr ["Alpha"]), ("topics", BsonValue.str "old")]], 0⟩

/-- C6 counterexample: no document of `cexArrayName` has a `name` field
equal to `"Alpha"`, yet `update_topics` with name `"Alpha"` changes the
collection — the store matches the array-valued `name` field by
membership, so a document whose `name` does not equal `N` is not left
unchanged. -/
theorem update_topics_frame_cex :
    (∀ d ∈ cexArrayName.docs,
      ¬ getField d "name" = some (BsonValue.str "Alpha")) ∧
    ¬ (update_topics cexArrayName "Alpha" ["new"]).docs = cexArrayName.docs := by
  decide

/-- C6 amended: `update_topics c N T` rewrites the collection document by
document: a document not matched by the name filter (`name` equals `N`,
or `name` an array containing `N`) is completely unchanged, and a matched
document has its `topics` field set to `T` with every other field
unchanged. -/
theorem update_topics_frame (c : Collection) (N : String) (T : List String) :
    List.Forall₂ (fun d d' =>
      (matchPair d "name" (BsonValue.str N) = false → d' = d) ∧
      (matchPair d "name" (BsonValue.str N) = true →
        getField d' "topics" = some (BsonValue.arr T) ∧
        ∀ g, g ≠ "topics" → getField d' g = getField d g))
      c.docs (update_topics c N T).docs := by
  unfold update_topics update_many
  simp only [List.forall₂_map_right_iff]
  rw [List.forall₂_same]
  intro d _
  rw [matchFilter_single]
  by_cases hm : matchPair d "name" (BsonValue.str N) = true
  · rw [if_pos hm]
    refine ⟨fun hfalse => absurd hm (by simp [hfalse]), fun _ => ?_⟩
    exact ⟨getField_setField_self d "topics" (BsonValue.arr T),
      fun g hg => getField_setField_ne d "topics" g (BsonValue.arr T) hg⟩
  · rw [if_neg hm]
    exact ⟨fun _ => rfl, fun htrue => absurd htrue hm⟩

/-! ### C5: Document Inserter -/

/-- C5: `insert_school` returns the freshly generated id and appends
exactly one new document, made of the generated `_id` followed by all
supplied fields verbatim; every pre-existing document is untouched, and
under the store invariant that existing `_id` values are below the id
counter, the returned id belongs to no pre-existing document. -/
theorem insert_school_spec (c : Collection) (kwargs : Document)
    (hwf : ∀ d ∈ c.docs, ∀ k,
      getField d "_id" = some (BsonValue.oid k) → k < c.nextId) :
    (insert_school c kwargs).1 = BsonValue.oid c.nextId ∧
    (insert_school c kwargs).2.docs
      = c.docs ++ [("_id", BsonValue.oid c.nextId) :: kwargs] ∧
    (insert_school c kwargs).2.nextId = c.nextId + 1 ∧
    (∀ d ∈ c.docs, ¬ getField d "_id" = some (insert_school c kwargs).1) := by
  refine ⟨rfl, rfl, rfl, ?_⟩
  intro d hd hcontra
  exact absurd (hwf d hd c.nextId hcontra) (lt_irrefl c.nextId)

/-- C5 witness: inserting into a concrete one-document collection. -/
theorem insert_school_spec_witness :
    (insert_school ⟨[[("_id", BsonValue.oid 0)]], 1⟩
        [("name", BsonValue.str "X")]).1 = BsonValue.oid 1 ∧
    (insert_school ⟨[[("_id", BsonValue.oid 0)]], 1⟩
        [("name", BsonValue.str "X")]).2.docs
      = [[("_id", BsonValue.oid 0)]]
        ++ [("_id", BsonValue.oid 1) :: [("name", BsonValue.str "X")]] ∧
    (insert_school ⟨[[("_id", BsonValue.oid 0)]], 1⟩
        [("name", BsonValue.str "X")]).2.nextId = 1 + 1 ∧
    (∀ d ∈ [[("_id", BsonValue.oid 0)]], ¬ getField d "_id"
      = some (insert_school ⟨[[("_id", BsonValue.oid 0)]], 1⟩
          [("name", BsonValue.str "X")]).1) :=
  insert_school_spec ⟨[[("_id", BsonValue.oid 0)]], 1⟩
    [("name", BsonValue.str "X")]
    (by
      intro d hd k hk
      have hd' : d = [("_id", BsonValue.oid 0)] := by simpa using hd
      subst hd'
      have hk0 : k = 0 := by simpa [getField] using hk.symm
      subst hk0
      decide)

/-! ### C9: behaviour on a `None` collection handle -/

/-- Function `insert_school` at the Python call boundary: the handle may be
`None`; the attribute access `mongo_collection.insert_one` on `None`
raises, modelled by `none`. -/
def insert_schoolO (h : Option Collection) (kwargs : Document) :
    Option (BsonValue × Collection) :=
  h.map (fun c => insert_school c kwargs)

/-- Function `update_topics` at the Python call boundary: `None.update_many`
raises, modelled by `none`. -/
def update_topicsO (h : Option Collection) (name : String)
    (topics : List String) : Option Collection :=
  h.map (fun c => update_topics c name topics)

/-- Function `schools_by_topic` at the Python call boundary: `None.find` raises,
modelled by `none`. -/
def schools_by_topicO (h : Option Collection) (topic : String) :
    Option (List Document) :=
  h.map (fun c => schools_by_topic c topic)

/-- C9: only `list_all` guards against a missing handle — with `none` it
returns the empty list, while `insert_school`, `update_topics` and
`schools_by_topic` fail (no defined result); with a real handle all four
produce their defined results. -/
theorem none_handle_behaviour (kwargs : Document) (N t : String)
    (T : List String) (c : Collection) :
    list_all none = ([] : List Document) ∧
    insert_schoolO none kwargs = none ∧
    update_topicsO none N T = none ∧
    schools_by_topicO none t = none ∧
    insert_schoolO (some c) kwargs = some (insert_school c kwargs) ∧
    update_topicsO (some c) N T = some (update_topics c N T) ∧
    schools_by_topicO (some c) t = some (schools_by_topic c t) :=
  ⟨rfl, rfl, rfl, rfl, rfl, rfl, rfl⟩

/-! ### C8: store errors propagate unchanged

Error-aware embedding: each function is re-expressed with its store
call(s) as a fallible parameter (`Except ε`); the bodies mirror the
Python sources, which contain no try/except, so an error from the call
site flows straight to the caller. -/

/-- Error-aware `update_topics`: one `update_many` call, its success
value discarded, its error unhandled. -/
def update_topicsE {ε α : Type}
    (updateCall : Filter → String → BsonValue → Except ε α)
    (name : String) (topics : List String) : Except ε Unit :=
  match updateCall [("name", BsonValue.str name)] "topics"
      (BsonValue.arr topics) with
  | Except.error e => Except.error e
  | Except.ok _ => Except.ok ()

/-- Error-aware `schools_by_topic`: the `find` call's result (or error)
is returned as-is. -/
def schools_by_topicE {ε : Type}
    (findCall : Filter → Except ε (List Document)) (topic : String) :
    Except ε (List Document) :=
  findCall [("topics", BsonValue.str topic)]

/-- Error-aware `insert_school`: one `insert_one` call, then
`result.inserted_id` on success; errors unhandled. -/
def insert_schoolE {ε : Type}
    (insertCall : Document → Except ε (BsonValue × Collection))
    (kwargs : Document) : Except ε BsonValue :=
  match insertCall kwargs with
  | Except.error e => Except.error e
  | Except.ok r => Except.ok r.1

/-- Error-aware `list_all`: the `None` branch makes no store call; the
other branch returns the `find` call's result as-is. -/
def list_allE {ε : Type} (h : Option Unit)
    (findCall : Filter → Except ε (List Document)) :
    Except ε (List Document) :=
  match h with
  | none => Except.ok []
  | some _ => findCall []

/-- The per-method count loop of `logs_statistics`, error-aware: stops
at the first failing `count_documents` call. -/
def methodLinesE {ε : Type} (countCall : Filter → Except ε Nat) :
    List String → Except ε (List String)
  | [] => Except.ok []
  | m :: ms =>
    match countCall [("method", BsonValue.str m)] with
    | Except.error e => Except.error e
    | Except.ok k =>
      match methodLinesE countCall ms with
      | Except.error e => Except.error e
      | Except.ok rest =>
        Except.ok (("\tmethod " ++ m ++ ": " ++ toString k) :: rest)

/-- Error-aware `logs_statistics`: the six `count_documents` calls in
source order; the first failing call aborts the whole report. -/
def logs_statisticsE {ε : Type} (countCall : Filter → Except ε Nat) :
    Except ε (List String) :=
  match countCall [] with
  | Except.error e => Except.error e
  | Except.ok total =>
    match methodLinesE countCall methods with
    | Except.error e => Except.error e
    | Except.ok lines =>
      match countCall [("method", BsonValue.str "GET"),
          ("path", BsonValue.str "/status")] with
      | Except.error e => Except.error e
      | Except.ok sc =>
        Except.ok ((toString total ++ " logs") :: "Methods:" :: lines
          ++ [toString sc ++ " status check"])

/-- C8: every store error propagates to the caller unchanged — with a
store whose call fails with `e`, each function returns exactly `error e`
(nothing caught, wrapped or replaced, no partial result); for the
reporter this also holds when only the last (status-check) call fails,
the one whose filter has two pairs. -/
theorem store_error_propagation (ε : Type) (e : ε) (N t : String)
    (T : List String) (kwargs : Document) :
    update_topicsE (fun _ _ _ => (Except.error e : Except ε Unit)) N T
      = Except.error e ∧
    schools_by_topicE (fun _ => (Except.error e : Except ε (List Document))) t
      = Except.error e ∧
    insert_schoolE
      (fun _ => (Except.error e : Except ε (BsonValue × Collection))) kwargs
      = Except.error e ∧
    list_allE (some ()) (fun _ => (Except.error e : Except ε (List Document)))
      = Except.error e ∧
    logs_statisticsE (fun _ => (Except.error e : Except ε Nat))
      = Except.error e ∧
    logs_statisticsE (fun phi =>
        if phi.length = 2 then (Except.error e : Except ε Nat)
        else Except.ok 0)
      = Except.error e :=
  ⟨rfl, rfl, rfl, rfl, rfl, rfl⟩

/-! ### C10: the document-field namespace excludes `mongo_collection` -/

/-- CPython call binding for the source signature
`def insert_school(mongo_collection, **kwargs)` with the collection
passed positionally: a keyword named `mongo_collection` collides with
the already-bound first parameter and raises `TypeError` before the body
runs; otherwise the keywords become the `kwargs` dict. -/
def bindInsertSchoolKwargs (kw : List (String × BsonValue)) :
    Except String (List (String × BsonValue)) :=
  if kw.any (fun p => p.1 == "mongo_collection") then
    Except.error "TypeError: insert_school() got multiple values for argument"
  else Except.ok kw

/-- A call of `insert_school` from Python: bind the keyword arguments,
then run the body. -/
def insert_school_call (c : Collection) (kw : List (String × BsonValue)) :
    Except String (BsonValue × Collection) :=
  match bindInsertSchoolKwargs kw with
  | Except.error msg => Except.error msg
  | Except.ok kwargs => Except.ok (insert_school c kwargs)

theorem getField_eq_none_of_no_key (l : List (String × BsonValue))
    (f : String) (h : l.any (fun p => p.1 == f) = false) :
    getField l f = none := by
  induction l with
  | nil => rfl
  | cons p rest ih =>
    obtain ⟨g, w⟩ := p
    simp only [List.any_cons, Bool.or_eq_false_iff] at h
    have hg : ¬ g = f := by simpa using h.1
    simp only [getField, if_neg hg]
    exact ih h.2

/-- C10: a keyword collision with `mongo_collection` aborts the call
with a `TypeError` before any insert, and a successful call inserts a
document in which the field `mongo_collection` cannot occur. -/
theorem insert_school_kw_excluded (c : Collection)
    (kw : List (String × BsonValue)) :
    (kw.any (fun p => p.1 == "mongo_collection") = true →
      insert_school_call c kw = Except.error
        "TypeError: insert_school() got multiple values for argument") ∧
    (kw.any (fun p => p.1 == "mongo_collection") = false →
      insert_school_call c kw = Except.ok (BsonValue.oid c.nextId,
        ⟨c.docs ++ [("_id", BsonValue.oid c.nextId) :: kw], c.nextId + 1⟩) ∧
      getField (("_id", BsonValue.oid c.nextId) :: kw) "mongo_collection"
        = none) := by
  constructor
  · intro hmem
    simp [insert_school_call, bindInsertSchoolKwargs, hmem]
  · intro hno
    refine ⟨by simp [insert_school_call, bindInsertSchoolKwargs, hno,
      insert_school, insert_one], ?_⟩
    simp only [getField, if_neg (by decide : ¬ ("_id" = "mongo_collection"))]
    exact getField_eq_none_of_no_key kw "mongo_collection" hno

/-- C10 witness: the colliding keyword errs concretely; a collision-free
call yields a document without the field. -/
theorem insert_school_kw_excluded_witness :
    insert_school_call ⟨[], 0⟩ [("mongo_collection", BsonValue.int 1)]
      = Except.error
        "TypeError: insert_school() got multiple values for argument" ∧
    getField [("_id", BsonValue.oid 0), ("name", BsonValue.str "X")]
      "mongo_collection" = none :=
  ⟨(insert_school_kw_excluded ⟨[], 0⟩
      [("mongo_collection", BsonValue.int 1)]).1 (by decide),
   ((insert_school_kw_excluded ⟨[], 0⟩
      [("name", BsonValue.str "X")]).2 (by decide)).2⟩

end AlxStorage
